import Mathlib

/-!
Shallow embedding of the Rebolo background job worker
(`pkg/rebolo/worker/simple.go`) and verification of its specification.

The worker dispatches named jobs to concurrently executing handler
goroutines, schedules delayed jobs, isolates handler panics via
`safeRun`, and drains in-flight work on `Stop` through a wait group.

Modelling choices:
* Go errors are modelled by `GoError` (a message) and the distinct
  error returns of the worker API by the inductive `WError`, one
  constructor per error site in the source; the spec's error taxonomy
  (`NotReadyError`, `ConfigurationError`, ...) is a classification of
  those constructors.
* A handler invocation's outcome (normal return of nil or an error,
  or a panic) is modelled by `HandlerResult`; a `Handler` maps the
  job's argument payload to such an outcome.
* The mutable worker (`Simple`) is the state record `WorkerState`;
  each Go method becomes a function from state to state (paired with
  its returned error).  Goroutines launched by `Perform` live in the
  `running` list and are executed by the separate step `runJob`;
  scheduling goroutines launched by `PerformIn` live in `scheduled`.
  `invocations` is a ghost history recording every handler call, and
  `log` records the logger output, so that observability claims can
  be stated.
* Real time is modelled in milliseconds (`Int`); the poll interval of
  `PerformIn`'s waiting loop is the literal 100 from the source.
-/

namespace Rebolo

/-- A Go `error` value, identified by its message
(the worker only ever builds errors with `fmt.Errorf`/`errors.New`). -/
structure GoError where
  msg : String
deriving DecidableEq, Repr

/-- Modelled from the spec: the `Job` type of the worker package is not in
the sources (only `simple.go` is); per the spec a job carries a handler
name and an ordered sequence of opaque string arguments. -/
structure Job where
  handler : String
  args : List String
deriving DecidableEq, Repr

/-- Outcome of running a handler body: a normal return (`ok` for a nil
error, `fail` for a non-nil error), or a panic whose value is either
itself an error or some other value known by its printed form. -/
inductive HandlerResult where
  | ok : HandlerResult
  | fail (e : GoError) : HandlerResult
  | panicErr (e : GoError) : HandlerResult
  | panicOther (printed : String) : HandlerResult
deriving DecidableEq, Repr

/-- Modelled from the spec: the `Handler` type of the worker package is not
in the sources; per the spec a handler maps a job's argument payload to a
success/failure outcome (here including the possibility of panicking). -/
def Handler : Type := List String → HandlerResult

/-- The distinct errors returned by the worker API, one constructor per
`return fmt.Errorf(...)` site in `simple.go`. -/
inductive WError where
  /-- `"worker is not yet started"` (`Perform`, line 95). -/
  | notStarted : WError
  /-- `"worker is not ready to perform a job: %v"` (`Perform` line 100,
  `PerformIn` line 158). -/
  | notReady : WError
  /-- `"no handler name given: %s"` (`Perform`, line 106). -/
  | noHandlerName (j : Job) : WError
  /-- `"no handler mapped for name %s"` (`Perform`, line 127). -/
  | noHandlerMapped (name : String) : WError
  /-- `"name or handler cannot be empty/nil"` (`Register`, line 50). -/
  | registerEmptyOrNil : WError
  /-- `"handler already mapped for name %s"` (`Register`, line 56). -/
  | alreadyMapped (name : String) : WError
deriving DecidableEq, Repr

/-- The spec's `NotReadyError`: `Perform` invoked before `Start` or after
the lifecycle context is cancelled. -/
def WError.isNotReadyError : WError → Bool
  | .notStarted => true
  | .notReady => true
  | _ => false

/-- The spec's `ConfigurationError`: invalid registration. -/
def WError.isConfigurationError : WError → Bool
  | .registerEmptyOrNil => true
  | .alreadyMapped _ => true
  | _ => false

/-- The spec's `ValidationError`: job carries an empty handler name. -/
def WError.isValidationError : WError → Bool
  | .noHandlerName _ => true
  | _ => false

/-- The spec's `NotFoundError`: no handler registered under the name. -/
def WError.isNotFoundError : WError → Bool
  | .noHandlerMapped _ => true
  | _ => false

/-- One line written by the worker's logger. -/
inductive LogEntry where
  /-- `"starting Simple background worker"`. -/
  | starting : LogEntry
  /-- `"stopping Simple background worker"`. -/
  | stopping : LogEntry
  /-- `"all background jobs stopped completely"`. -/
  | stopped : LogEntry
  /-- `"performing job %s"`. -/
  | performing (j : Job) : LogEntry
  /-- `"ERROR: %v"` for a pre-dispatch error of `Perform`. -/
  | errorPre (e : WError) : LogEntry
  /-- `"ERROR: %v"` for an error produced by a handler goroutine. -/
  | errorRun (e : GoError) : LogEntry
  /-- `"completed job %s"`. -/
  | completed (j : Job) : LogEntry
deriving DecidableEq

/-- Association-list lookup in the handler map (`w.handlers[name]`). -/
def lookupH : List (String × Handler) → String → Option Handler
  | [], _ => none
  | (n, h) :: rest, name => if n = name then some h else lookupH rest name

/-- The state of a `Simple` worker: the handler map, the started flag,
whether the internal cancellable context has been cancelled, the
`sync.WaitGroup` counter, the goroutines launched by `Perform` that have
not yet finished (`running`), the scheduling goroutines launched by
`PerformIn` with the remaining duration in ms (`scheduled`), the ghost
history of handler invocations, and the log output. -/
structure WorkerState where
  handlers : List (String × Handler)
  started : Bool
  ctxCancelled : Bool
  inFlight : Nat
  running : List (Job × Handler)
  scheduled : List (Job × Int)
  invocations : List (String × List String)
  log : List LogEntry

/-- `NewSimple()`: a fresh worker with an empty handler map, not started,
with a fresh (non-cancelled) cancellable context. -/
def NewSimple : WorkerState where
  handlers := []
  started := false
  ctxCancelled := false
  inFlight := 0
  running := []
  scheduled := []
  invocations := []
  log := []

/-- `Register(name, h)`: rejects an empty name or nil handler, rejects a
name that is already mapped, and otherwise binds the handler. -/
def Register (w : WorkerState) (name : String) (h : Option Handler) :
    WorkerState × Option WError :=
  match h with
  | none => (w, some .registerEmptyOrNil)
  | some hh =>
    if name = "" then (w, some .registerEmptyOrNil)
    else
      match lookupH w.handlers name with
      | some _ => (w, some (.alreadyMapped name))
      | none => ({ w with handlers := (name, hh) :: w.handlers }, none)

/-- `Start(ctx)`: logs, replaces the internal context by a fresh
cancellable context derived from `ctx` (cancelled iff `ctx` already is),
and sets the started flag. -/
def Start (w : WorkerState) (parentCancelled : Bool) :
    WorkerState × Option WError :=
  ({ w with log := w.log ++ [LogEntry.starting]
            started := true
            ctxCancelled := parentCancelled }, none)

/-- The first half of `Stop()`: under the guard, log and cancel the
internal context.  `Stop` then blocks in `wg.Wait()`; see
`stopCanReturn`. -/
def stopCancel (w : WorkerState) : WorkerState :=
  { w with log := w.log ++ [LogEntry.stopping], ctxCancelled := true }

/-- The semantics of `wg.Wait()` inside `Stop`: the call can only return
once the wait-group counter has drained to zero. -/
def stopCanReturn (w : WorkerState) : Prop := w.inFlight = 0

/-- `safeRun`: runs the handler body; if it panics, the recovered value is
returned as the error — the value itself when it is an error, otherwise
an error built from its printed form (`errors.New(fmt.Sprint(ex))`);
otherwise the body's own return value is passed through. -/
def safeRun : HandlerResult → Option GoError
  | .ok => none
  | .fail e => some e
  | .panicErr e => some e
  | .panicOther printed => some ⟨printed⟩

/-- `Perform(job)`: fails if the worker is not started or its context is
cancelled; logs; fails on an empty handler name; on a mapped handler,
increments the wait group and launches one goroutine for the job
(appended to `running`, executed later by `runJob`) and returns nil;
otherwise fails with the no-handler-mapped error. -/
def Perform (w : WorkerState) (j : Job) : WorkerState × Option WError :=
  if !w.started then (w, some .notStarted)
  else if w.ctxCancelled then (w, some .notReady)
  else
    let w1 := { w with log := w.log ++ [LogEntry.performing j] }
    if j.handler = "" then
      ({ w1 with log := w1.log ++ [LogEntry.errorPre (.noHandlerName j)] },
        some (.noHandlerName j))
    else
      match lookupH w.handlers j.handler with
      | some h =>
        ({ w1 with inFlight := w1.inFlight + 1
                   running := w1.running ++ [(j, h)] }, none)
      | none =>
        ({ w1 with log := w1.log ++ [LogEntry.errorPre (.noHandlerMapped j.handler)] },
          some (.noHandlerMapped j.handler))

/-- The body of the goroutine launched by `Perform` for `running[i]`:
runs the handler on the job's arguments inside `safeRun`, logs the
resulting error if any, logs completion, and decrements the wait group
(`defer wg.Done()`).  The invocation is recorded in the ghost history. -/
def runJob (w : WorkerState) (i : Nat) : WorkerState :=
  match w.running[i]? with
  | none => w
  | some (j, h) =>
    let errLog : List LogEntry :=
      match safeRun (h j.args) with
      | some e => [LogEntry.errorRun e]
      | none => []
    { w with running := w.running.eraseIdx i
             inFlight := w.inFlight - 1
             invocations := w.invocations ++ [(j.handler, j.args)]
             log := w.log ++ errLog ++ [LogEntry.completed j] }

/-- `PerformIn(job, d)`: fails if the lifecycle context is already
cancelled; otherwise increments the wait group ("waiting job also should
be counted") and launches the scheduling goroutine (appended to
`scheduled` with its remaining duration) and returns nil. -/
def PerformIn (w : WorkerState) (j : Job) (d : Int) :
    WorkerState × Option WError :=
  if w.ctxCancelled then (w, some .notReady)
  else ({ w with inFlight := w.inFlight + 1
                 scheduled := w.scheduled ++ [(j, d)] }, none)

/-- `time.Until(t)` at current time `now` (both in ms). -/
def timeUntil (t now : Int) : Int := t - now

/-- `PerformAt(job, t)`: delegates to `PerformIn(job, time.Until(t))`. -/
def PerformAt (w : WorkerState) (j : Job) (t now : Int) :
    WorkerState × Option WError :=
  PerformIn w j (timeUntil t now)

/-- One iteration of the scheduling goroutine's poll loop while the worker
is not started: sleep 100ms, then `d = d - waiting`. -/
def pollStep (d : Int) : Int := d - 100

/-- The remaining duration after `k` poll iterations each of which found
the worker not yet started. -/
def pollRemaining (d : Int) : Nat → Int
  | 0 => d
  | k + 1 => pollRemaining (pollStep d) k

/-- `time.After(d)` fires after `max d 0` ms (a non-positive duration
fires immediately). -/
def timerDelay (d : Int) : Int := max d 0

/-- The time (in ms after the `PerformIn` call) at which the scheduled job
is handed to `Perform`, when the poll loop observed the started flag at
its `k`-th check and the lifecycle context was not cancelled before the
timer fired: `k` sleeps of 100ms, then the timer wait on the remaining
duration. -/
def schedExecTime (d : Int) (k : Nat) : Int :=
  100 * k + timerDelay (pollRemaining d k)

/-- The select branch taken by the scheduling goroutine for
`scheduled[i]` when the lifecycle context is cancelled before the timer
fires: `w.cancel()` (the context stays cancelled) and return; the
deferred `wg.Done()` decrements the wait group.  The job is never handed
to `Perform`. -/
def schedCancelExit (w : WorkerState) (i : Nat) : WorkerState :=
  match w.scheduled[i]? with
  | none => w
  | some _ =>
    { w with scheduled := w.scheduled.eraseIdx i
             inFlight := w.inFlight - 1
             ctxCancelled := true }

/-- The select branch taken by the scheduling goroutine for
`scheduled[i]` when the timer fires: call `w.Perform(job)` discarding its
result, then the deferred `wg.Done()` decrements the wait group. -/
def schedTimerFire (w : WorkerState) (i : Nat) : WorkerState :=
  match w.scheduled[i]? with
  | none => w
  | some (j, _) =>
    let w1 := (Perform { w with scheduled := w.scheduled.eraseIdx i } j).1
    { w1 with inFlight := w1.inFlight - 1 }

/-- One scheduling-goroutine poll iteration on `scheduled[i]` while the
worker is not started. -/
def schedPoll (w : WorkerState) (i : Nat) : WorkerState :=
  match w.scheduled[i]? with
  | none => w
  | some (j, d) =>
    { w with scheduled := w.scheduled.set i (j, pollStep d) }

/-- The interleaving semantics of a worker and its goroutines: any API
call by a client thread, any poll/select step of a scheduling goroutine,
and any handler-goroutine completion may happen next.  (This is a
superset of the behaviours the mutex allows, so safety properties proved
over it hold of the real interleavings.) -/
inductive Step : WorkerState → WorkerState → Prop where
  | register (w : WorkerState) (name : String) (h : Option Handler) :
      Step w (Register w name h).1
  | start (w : WorkerState) (parentCancelled : Bool) :
      Step w (Start w parentCancelled).1
  | stopCancel (w : WorkerState) : Step w (stopCancel w)
  | perform (w : WorkerState) (j : Job) : Step w (Perform w j).1
  | performIn (w : WorkerState) (j : Job) (d : Int) :
      Step w (PerformIn w j d).1
  | runJob (w : WorkerState) (i : Nat) : Step w (runJob w i)
  | schedPoll (w : WorkerState) (i : Nat) : Step w (schedPoll w i)
  | schedTimerFire (w : WorkerState) (i : Nat) : Step w (schedTimerFire w i)
  | schedCancelExit (w : WorkerState) (i : Nat) :
      Step w (schedCancelExit w i)

/-- A worker state reachable from the fresh worker by any interleaving. -/
def Reachable (w : WorkerState) : Prop :=
  Relation.ReflTransGen Step NewSimple w

/-- The wait-group counter counts exactly the goroutines that have been
launched and have not yet finished: the handler goroutines of `Perform`
and the scheduling goroutines of `PerformIn`. -/
def InFlightInv (w : WorkerState) : Prop :=
  w.inFlight = w.running.length + w.scheduled.length

theorem perform_counts (w : WorkerState) (j : Job) :
    ((Perform w j).1.running.length = w.running.length ∧
        (Perform w j).1.inFlight = w.inFlight ∨
      (Perform w j).1.running.length = w.running.length + 1 ∧
        (Perform w j).1.inFlight = w.inFlight + 1) ∧
    (Perform w j).1.scheduled = w.scheduled := by
  unfold Perform
  split
  · exact ⟨Or.inl ⟨rfl, rfl⟩, rfl⟩
  · split
    · exact ⟨Or.inl ⟨rfl, rfl⟩, rfl⟩
    · dsimp only
      split
      · exact ⟨Or.inl ⟨rfl, rfl⟩, rfl⟩
      · split
        · exact ⟨Or.inr ⟨by simp, rfl⟩, rfl⟩
        · exact ⟨Or.inl ⟨rfl, rfl⟩, rfl⟩

theorem index_lt_of_getElem?_eq_some {α : Type} {l : List α} {i : Nat}
    {a : α} (h : l[i]? = some a) : i < l.length := by
  by_contra hlt
  rw [List.getElem?_eq_none (by omega)] at h
  simp at h

theorem inFlightInv_step {w w' : WorkerState} (hs : Step w w')
    (hw : InFlightInv w) : InFlightInv w' := by
  unfold InFlightInv at *
  cases hs with
  | register name h =>
    unfold Register
    rcases h with _ | hh
    · exact hw
    · dsimp only
      split
      · exact hw
      · split <;> exact hw
  | start parentCancelled => exact hw
  | stopCancel => exact hw
  | perform j =>
    have h := perform_counts w j
    rcases h with ⟨h1 | h1, h2⟩ <;> rw [h1.1, h1.2, h2] <;> omega
  | performIn j d =>
    unfold PerformIn
    split
    · exact hw
    · simp only [List.length_append, List.length_cons, List.length_nil]
      omega
  | runJob i =>
    unfold runJob
    cases hg : w.running[i]? with
    | none => exact hw
    | some p =>
      have hi : i < w.running.length := index_lt_of_getElem?_eq_some hg
      obtain ⟨j, h⟩ := p
      simp only [List.length_eraseIdx, if_pos hi]
      omega
  | schedPoll i =>
    unfold schedPoll
    cases hg : w.scheduled[i]? with
    | none => exact hw
    | some p =>
      obtain ⟨j, d⟩ := p
      simp only [List.length_set]
      exact hw
  | schedTimerFire i =>
    unfold schedTimerFire
    cases hg : w.scheduled[i]? with
    | none => exact hw
    | some p =>
      have hi : i < w.scheduled.length := index_lt_of_getElem?_eq_some hg
      obtain ⟨j, d⟩ := p
      have h := perform_counts { w with scheduled := w.scheduled.eraseIdx i } j
      rcases h with ⟨h1 | h1, h2⟩ <;>
        simp only [h2, h1.1, h1.2, List.length_eraseIdx, if_pos hi] <;>
        omega
  | schedCancelExit i =>
    unfold schedCancelExit
    cases hg : w.scheduled[i]? with
    | none => exact hw
    | some p =>
      have hi : i < w.scheduled.length := index_lt_of_getElem?_eq_some hg
      obtain ⟨j, d⟩ := p
      simp only [List.length_eraseIdx, if_pos hi]
      omega

theorem reachable_inFlightInv {w : WorkerState} (h : Reachable w) :
    InFlightInv w := by
  induction h with
  | refl => rfl
  | tail _ hstep ih => exact inFlightInv_step hstep ih

/-- `Perform` on a started, non-cancelled worker and a mapped handler:
log the dispatch, increment the wait group, launch the goroutine,
return nil. -/
theorem perform_dispatch (w : WorkerState) (j : Job) (h : Handler)
    (hst : w.started = true) (hctx : w.ctxCancelled = false)
    (hname : j.handler ≠ "") (hmap : lookupH w.handlers j.handler = some h) :
    Perform w j =
      ({ w with log := w.log ++ [LogEntry.performing j]
                inFlight := w.inFlight + 1
                running := w.running ++ [(j, h)] }, none) := by
  unfold Perform
  rw [hst, hctx, hmap]
  simp [hname]

/-- `Perform` with the worker not started, or with a cancelled context,
rejects the job before doing anything. -/
theorem perform_not_ready (w : WorkerState) (j : Job)
    (hnot : w.started = false ∨ w.ctxCancelled = true) :
    (Perform w j).1 = w ∧ (Perform w j).2.isSome = true ∧
      (Perform w j).2.all WError.isNotReadyError = true := by
  unfold Perform
  rcases hnot with hnot | hnot
  · rw [hnot]
    exact ⟨rfl, rfl, rfl⟩
  · rw [hnot]
    cases hst : w.started <;> simp [WError.isNotReadyError]

/-- The goroutine body for a launched job, as a record update. -/
theorem runJob_eq (w : WorkerState) (i : Nat) (j : Job) (h : Handler)
    (hg : w.running[i]? = some (j, h)) :
    runJob w i =
      { w with running := w.running.eraseIdx i
               inFlight := w.inFlight - 1
               invocations := w.invocations ++ [(j.handler, j.args)]
               log := w.log ++
                 (match safeRun (h j.args) with
                  | some e => [LogEntry.errorRun e]
                  | none => []) ++ [LogEntry.completed j] } := by
  unfold runJob
  rw [hg]

theorem eraseIdx_concat {α : Type} (l : List α) (a : α) :
    (l ++ [a]).eraseIdx l.length = l := by
  induction l with
  | nil => rfl
  | cons x xs ih => simp [List.eraseIdx, ih]

/-- C1: every dispatched handler runs inside `safeRun`, which turns a
panic into an ordinary error (the panic value itself when it is an
error, otherwise an error built from its printed form); that error is
only appended to the log by the goroutine, `Perform` having already
returned nil, and after the faulting goroutine finishes the worker's
handler map and lifecycle state are intact, so `Perform` for another
registered handler still succeeds. -/
theorem spec_c1_panic_isolated (w : WorkerState) (j j₂ : Job)
    (h h₂ : Handler) (e : GoError) (s : String)
    (hst : w.started = true) (hctx : w.ctxCancelled = false)
    (hname : j.handler ≠ "") (hmap : lookupH w.handlers j.handler = some h)
    (hname₂ : j₂.handler ≠ "")
    (hmap₂ : lookupH w.handlers j₂.handler = some h₂) :
    safeRun (HandlerResult.panicErr e) = some e ∧
    safeRun (HandlerResult.panicOther s) = some ⟨s⟩ ∧
    (Perform w j).2 = none ∧
    (runJob (Perform w j).1 w.running.length).log =
      (Perform w j).1.log ++
        (match safeRun (h j.args) with
         | some e' => [LogEntry.errorRun e']
         | none => []) ++ [LogEntry.completed j] ∧
    (runJob (Perform w j).1 w.running.length).handlers = w.handlers ∧
    (runJob (Perform w j).1 w.running.length).started = true ∧
    (runJob (Perform w j).1 w.running.length).ctxCancelled = false ∧
    (Perform (runJob (Perform w j).1 w.running.length) j₂).2 = none := by
  have hp := perform_dispatch w j h hst hctx hname hmap
  have hg : (Perform w j).1.running[w.running.length]? = some (j, h) := by
    rw [hp]
    exact List.getElem?_concat_length w.running (j, h)
  have hr := runJob_eq (Perform w j).1 w.running.length j h hg
  refine ⟨rfl, rfl, by rw [hp], by rw [hr], ?_, ?_, ?_, ?_⟩
  · rw [hr, hp]
  · rw [hr, hp, hst]
  · rw [hr, hp, hctx]
  · have hmap₂' :
        lookupH (runJob (Perform w j).1 w.running.length).handlers
          j₂.handler = some h₂ := by
      rw [hr, hp]
      exact hmap₂
    have hst' : (runJob (Perform w j).1 w.running.length).started = true := by
      rw [hr, hp, hst]
    have hctx' :
        (runJob (Perform w j).1 w.running.length).ctxCancelled = false := by
      rw [hr, hp, hctx]
    rw [perform_dispatch _ j₂ h₂ hst' hctx' hname₂ hmap₂']

/-- C3: `Perform` on a worker that is not started, or whose lifecycle
context is cancelled (in particular right after `stopCancel`), returns a
`NotReadyError` and leaves the state — handler goroutines, wait group,
invocation history, everything — untouched. -/
theorem spec_c3_perform_not_ready (w : WorkerState) (j : Job)
    (hnot : w.started = false ∨ w.ctxCancelled = true) :
    (Perform w j).1 = w ∧
    (Perform w j).2.isSome = true ∧
    (Perform w j).2.all WError.isNotReadyError = true ∧
    (Perform (stopCancel w) j).1 = stopCancel w ∧
    (Perform (stopCancel w) j).2.isSome = true ∧
    (Perform (stopCancel w) j).2.all WError.isNotReadyError = true := by
  obtain ⟨h1, h2, h3⟩ := perform_not_ready w j hnot
  obtain ⟨h4, h5, h6⟩ := perform_not_ready (stopCancel w) j (Or.inr rfl)
  exact ⟨h1, h2, h3, h4, h5, h6⟩

theorem register_none_eq (w : WorkerState) (name : String) :
    Register w name none = (w, some .registerEmptyOrNil) := rfl

theorem register_some_eq (w : WorkerState) (name : String) (hh : Handler) :
    Register w name (some hh) =
      (if name = "" then (w, some .registerEmptyOrNil)
       else
         match lookupH w.handlers name with
         | some _ => (w, some (.alreadyMapped name))
         | none =>
           ({ w with handlers := (name, hh) :: w.handlers }, none)) := rfl

/-- C4: `Register` fails with a `ConfigurationError` exactly when the
name is empty, the handler is nil, or the name is already mapped; every
failure leaves the worker unchanged (so on a duplicate registration the
original handler stays bound), and a successful registration binds the
handler under the name. -/
theorem spec_c4_register_configuration (w : WorkerState) (name : String)
    (h : Option Handler) (hh h₀ : Handler) :
    ((Register w name h).2.isSome = true ↔
      (name = "" ∨ h = none ∨ (lookupH w.handlers name).isSome = true)) ∧
    (Register w name h).2.all WError.isConfigurationError = true ∧
    ((Register w name h).2.isSome = true → (Register w name h).1 = w) ∧
    (name ≠ "" → lookupH w.handlers name = none →
      Register w name (some hh) =
        ({ w with handlers := (name, hh) :: w.handlers }, none) ∧
      lookupH ((name, hh) :: w.handlers) name = some hh) ∧
    (name ≠ "" → lookupH w.handlers name = some h₀ →
      (Register w name (some hh)).2 = some (.alreadyMapped name) ∧
      (Register w name (some hh)).1 = w ∧
      lookupH (Register w name (some hh)).1.handlers name = some h₀) := by
  refine ⟨?_, ?_, ?_, ?_, ?_⟩
  · rcases h with _ | hh'
    · simp [register_none_eq]
    · rw [register_some_eq]
      by_cases hn : name = ""
      · simp [hn]
      · rw [if_neg hn]
        cases hl : lookupH w.handlers name <;> simp [hn, hl]
  · rcases h with _ | hh'
    · rfl
    · rw [register_some_eq]
      by_cases hn : name = ""
      · rw [if_pos hn]; rfl
      · rw [if_neg hn]
        cases hl : lookupH w.handlers name
        · rfl
        · rfl
  · rcases h with _ | hh'
    · intro _; rfl
    · rw [register_some_eq]
      by_cases hn : name = ""
      · rw [if_pos hn]; intro _; rfl
      · rw [if_neg hn]
        cases hl : lookupH w.handlers name
        · intro habs; simp at habs
        · intro _; rfl
  · intro hn hl
    rw [register_some_eq, if_neg hn, hl]
    exact ⟨rfl, by simp [lookupH]⟩
  · intro hn hl
    rw [register_some_eq, if_neg hn, hl]
    exact ⟨rfl, rfl, hl⟩

/-- C5: on a started, non-cancelled worker with the job's handler
registered, `Perform` returns nil, launches exactly one new goroutine
for the job, and increments the wait group before the launch; when that
goroutine runs it invokes the handler exactly once with exactly the
job's argument payload and decrements the wait group, whatever the
handler's outcome. -/
theorem spec_c5_perform_dispatches (w : WorkerState) (j : Job) (h : Handler)
    (hst : w.started = true) (hctx : w.ctxCancelled = false)
    (hname : j.handler ≠ "") (hmap : lookupH w.handlers j.handler = some h) :
    (Perform w j).2 = none ∧
    (Perform w j).1.running = w.running ++ [(j, h)] ∧
    (Perform w j).1.inFlight = w.inFlight + 1 ∧
    (Perform w j).1.invocations = w.invocations ∧
    (runJob (Perform w j).1 w.running.length).invocations =
      w.invocations ++ [(j.handler, j.args)] ∧
    (runJob (Perform w j).1 w.running.length).inFlight = w.inFlight ∧
    (runJob (Perform w j).1 w.running.length).running = w.running := by
  have hp := perform_dispatch w j h hst hctx hname hmap
  have hg : (Perform w j).1.running[w.running.length]? = some (j, h) := by
    rw [hp]
    exact List.getElem?_concat_length w.running (j, h)
  have hr := runJob_eq (Perform w j).1 w.running.length j h hg
  refine ⟨by rw [hp], by rw [hp], by rw [hp], by rw [hp], ?_, ?_, ?_⟩
  · rw [hr, hp]
  · rw [hr, hp]
    simp
  · rw [hr, hp]
    exact eraseIdx_concat w.running (j, h)

/-- C6: on a started, non-cancelled worker, `Perform` of a job with an
empty handler name returns a `ValidationError` and `Perform` of a job
with an unmapped handler name returns a `NotFoundError`; neither
launches a goroutine, touches the wait group, or invokes a handler. -/
theorem spec_c6_perform_validation (w : WorkerState) (j j' : Job)
    (hst : w.started = true) (hctx : w.ctxCancelled = false)
    (hempty : j.handler = "")
    (hname' : j'.handler ≠ "")
    (hmiss : lookupH w.handlers j'.handler = none) :
    (Perform w j).2 = some (.noHandlerName j) ∧
    (WError.noHandlerName j).isValidationError = true ∧
    (Perform w j).1.running = w.running ∧
    (Perform w j).1.inFlight = w.inFlight ∧
    (Perform w j).1.invocations = w.invocations ∧
    (Perform w j).1.scheduled = w.scheduled ∧
    (Perform w j').2 = some (.noHandlerMapped j'.handler) ∧
    (WError.noHandlerMapped j'.handler).isNotFoundError = true ∧
    (Perform w j').1.running = w.running ∧
    (Perform w j').1.inFlight = w.inFlight ∧
    (Perform w j').1.invocations = w.invocations ∧
    (Perform w j').1.scheduled = w.scheduled := by
  have hv : Perform w j =
      ({ w with log := w.log ++ [LogEntry.performing j] ++
          [LogEntry.errorPre (.noHandlerName j)] },
        some (.noHandlerName j)) := by
    unfold Perform
    rw [hst, hctx]
    simp [hempty]
  have hnf : Perform w j' =
      ({ w with log := w.log ++ [LogEntry.performing j'] ++
          [LogEntry.errorPre (.noHandlerMapped j'.handler)] },
        some (.noHandlerMapped j'.handler)) := by
    unfold Perform
    rw [hst, hctx, hmiss]
    simp [hname']
  refine ⟨by rw [hv], rfl, by rw [hv], by rw [hv], by rw [hv], by rw [hv],
    by rw [hnf], rfl, by rw [hnf], by rw [hnf], by rw [hnf], by rw [hnf]⟩

/-- C2: `Stop()` cancels the worker's internal context, then blocks in
`wg.Wait()`, which can only return once the in-flight counter is zero;
in any reachable state in which the wait can return, no handler
goroutine and no scheduling goroutine is still executing. -/
theorem spec_c2_stop_drains (w : WorkerState) (hw : Reachable w) :
    (stopCancel w).ctxCancelled = true ∧
    (stopCanReturn w →
      w.inFlight = 0 ∧ w.running = [] ∧ w.scheduled = []) := by
  refine ⟨rfl, fun h0 => ?_⟩
  have hinv := reachable_inFlightInv hw
  unfold InFlightInv at hinv
  have h0' : w.inFlight = 0 := h0
  refine ⟨h0', ?_, ?_⟩
  · have hlen : w.running.length = 0 := by omega
    exact List.length_eq_zero.mp hlen
  · have hlen : w.scheduled.length = 0 := by omega
    exact List.length_eq_zero.mp hlen

theorem pollRemaining_eq (d : Int) (k : Nat) :
    pollRemaining d k = d - 100 * k := by
  induction k generalizing d with
  | zero => simp [pollRemaining]
  | succ n ih =>
    rw [pollRemaining, ih]
    unfold pollStep
    push_cast
    ring

/-- C7: `PerformIn` before `Start` (with the context not yet cancelled)
returns nil and immediately launches the scheduling goroutine, counted
in-flight; the goroutine polls in 100ms steps, so after `k` polls the
remaining wait is `d - 100k`, and if `Start` happens at time `s` and is
observed at the `k`-th poll the job runs at `100k + max (d - 100k) 0` —
never before `Start`, and never sooner than `d` minus one polling
interval. -/
theorem spec_c7_delayed_before_start (w : WorkerState) (j : Job)
    (d s : Int) (k : Nat)
    (hst : w.started = false) (hctx : w.ctxCancelled = false)
    (hs0 : 0 ≤ s) (hk1 : s ≤ 100 * k) (hk2 : 100 * k < s + 100) :
    (PerformIn w j d).2 = none ∧
    (PerformIn w j d).1.inFlight = w.inFlight + 1 ∧
    (PerformIn w j d).1.scheduled = w.scheduled ++ [(j, d)] ∧
    pollRemaining d k = d - 100 * k ∧
    schedExecTime d k = 100 * k + max (d - 100 * k) 0 ∧
    s ≤ schedExecTime d k ∧
    d - 100 ≤ schedExecTime d k := by
  have hPi : PerformIn w j d =
      ({ w with inFlight := w.inFlight + 1
                scheduled := w.scheduled ++ [(j, d)] }, none) := by
    unfold PerformIn
    rw [hctx]
    rfl
  have hpr := pollRemaining_eq d k
  have hmax : schedExecTime d k = 100 * k + max (d - 100 * k) 0 := by
    unfold schedExecTime timerDelay
    rw [hpr]
  refine ⟨by rw [hPi], by rw [hPi], by rw [hPi], hpr, hmax, ?_, ?_⟩
  · rw [hmax]
    have hm := le_max_right (d - 100 * (k : Int)) 0
    omega
  · rw [hmax]
    have hm := le_max_left (d - 100 * (k : Int)) 0
    omega

/-- C8: if the lifecycle context is cancelled before a delayed job's
timer fires, the scheduling goroutine exits by the cancellation branch:
the job is abandoned (never handed to `Perform`, no invocation), nothing
is logged, and the wait group is decremented; already-launched handler
goroutines are unaffected — `runJob` behaves identically whatever the
cancellation flag and always runs its handler to completion. -/
theorem spec_c8_cancel_abandons (w : WorkerState) (i i' : Nat)
    (j j' : Job) (d : Int) (h' : Handler) (b : Bool)
    (hctx : w.ctxCancelled = true)
    (hg : w.scheduled[i]? = some (j, d))
    (hg' : w.running[i']? = some (j', h')) :
    (schedCancelExit w i).scheduled = w.scheduled.eraseIdx i ∧
    (schedCancelExit w i).invocations = w.invocations ∧
    (schedCancelExit w i).log = w.log ∧
    (schedCancelExit w i).running = w.running ∧
    (schedCancelExit w i).inFlight = w.inFlight - 1 ∧
    (schedCancelExit w i).ctxCancelled = true ∧
    (runJob w i').invocations = w.invocations ++ [(j'.handler, j'.args)] ∧
    runJob { w with ctxCancelled := b } i' =
      { runJob w i' with ctxCancelled := b } := by
  have hce : schedCancelExit w i =
      { w with scheduled := w.scheduled.eraseIdx i
               inFlight := w.inFlight - 1
               ctxCancelled := true } := by
    unfold schedCancelExit
    rw [hg]
  have hrj := runJob_eq w i' j' h' hg'
  have hg2 : ({ w with ctxCancelled := b } :
      WorkerState).running[i']? = some (j', h') := hg'
  have hrj2 := runJob_eq { w with ctxCancelled := b } i' j' h' hg2
  refine ⟨by rw [hce], by rw [hce], by rw [hce], by rw [hce], by rw [hce],
    by rw [hce], by rw [hrj], ?_⟩
  rw [hrj, hrj2]

/-- C9: `PerformAt(job, t)` is exactly `PerformIn(job, time.Until(t))`,
i.e. `PerformIn` with the duration remaining until `t`. -/
theorem spec_c9_performAt_delegates (w : WorkerState) (j : Job)
    (t now : Int) :
    PerformAt w j t now = PerformIn w j (t - now) := rfl

/-- C10: `PerformIn` (and hence `PerformAt`) with the lifecycle context
already cancelled — e.g. after `Stop` — returns the not-ready error
synchronously and changes nothing: no scheduling goroutine is launched,
the wait group is untouched, and the job is never recorded. -/
theorem spec_c10_performIn_after_cancel (w : WorkerState) (j : Job)
    (d t now : Int) (hctx : w.ctxCancelled = true) :
    PerformIn w j d = (w, some .notReady) ∧
    WError.notReady.isNotReadyError = true ∧
    PerformAt w j t now = (w, some .notReady) ∧
    (PerformIn w j d).1.scheduled = w.scheduled ∧
    (PerformIn w j d).1.inFlight = w.inFlight := by
  have h1 : PerformIn w j d = (w, some .notReady) := by
    unfold PerformIn
    rw [hctx]
    rfl
  have h2 : PerformAt w j t now = (w, some .notReady) := by
    unfold PerformAt timeUntil PerformIn
    rw [hctx]
    rfl
  exact ⟨h1, rfl, h2, by rw [h1], by rw [h1]⟩

/-! Concrete fixtures for the witnesses. -/

/-- A handler that always succeeds. -/
def echoHandler : Handler := fun _ => HandlerResult.ok

/-- A handler that always panics with a non-error value. -/
def boomHandler : Handler := fun _ => HandlerResult.panicOther "boom"

/-- A started worker with `echo` and `boom` registered. -/
def demoWorker : WorkerState :=
  (Start
    (Register (Register NewSimple "echo" (some echoHandler)).1
      "boom" (some boomHandler)).1 false).1

/-- A stopped worker with one running handler goroutine and one pending
delayed job. -/
def busyWorker : WorkerState :=
  stopCancel
    (PerformIn (Perform demoWorker ⟨"echo", ["a"]⟩).1 ⟨"echo", ["b"]⟩ 500).1

/-- A worker with only `echo` registered. -/
def regWorker : WorkerState :=
  (Register NewSimple "echo" (some echoHandler)).1

/-- Witness for C1: a panicking `boom` job on the demo worker. -/
theorem spec_c1_panic_isolated_witness :
    safeRun (HandlerResult.panicErr ⟨"E"⟩) = some ⟨"E"⟩ ∧
    safeRun (HandlerResult.panicOther "S") = some ⟨"S"⟩ ∧
    (Perform demoWorker ⟨"boom", ["x"]⟩).2 = none ∧
    (runJob (Perform demoWorker ⟨"boom", ["x"]⟩).1
        demoWorker.running.length).log =
      (Perform demoWorker ⟨"boom", ["x"]⟩).1.log ++
        (match safeRun (boomHandler ["x"]) with
         | some e' => [LogEntry.errorRun e']
         | none => []) ++ [LogEntry.completed ⟨"boom", ["x"]⟩] ∧
    (runJob (Perform demoWorker ⟨"boom", ["x"]⟩).1
        demoWorker.running.length).handlers = demoWorker.handlers ∧
    (runJob (Perform demoWorker ⟨"boom", ["x"]⟩).1
        demoWorker.running.length).started = true ∧
    (runJob (Perform demoWorker ⟨"boom", ["x"]⟩).1
        demoWorker.running.length).ctxCancelled = false ∧
    (Perform (runJob (Perform demoWorker ⟨"boom", ["x"]⟩).1
        demoWorker.running.length) ⟨"echo", []⟩).2 = none :=
  spec_c1_panic_isolated demoWorker ⟨"boom", ["x"]⟩ ⟨"echo", []⟩
    boomHandler echoHandler ⟨"E"⟩ "S" rfl rfl (by decide) rfl (by decide) rfl

/-- Witness for C2: the fresh worker is reachable and drained. -/
theorem spec_c2_stop_drains_witness :
    (stopCancel NewSimple).ctxCancelled = true ∧
    (stopCanReturn NewSimple →
      NewSimple.inFlight = 0 ∧ NewSimple.running = [] ∧
        NewSimple.scheduled = []) :=
  spec_c2_stop_drains NewSimple Relation.ReflTransGen.refl

/-- Witness for C3: `Perform` on the fresh (never started) worker and on
the stopped worker. -/
theorem spec_c3_perform_not_ready_witness :
    (Perform NewSimple ⟨"echo", []⟩).1 = NewSimple ∧
    (Perform NewSimple ⟨"echo", []⟩).2.isSome = true ∧
    (Perform NewSimple ⟨"echo", []⟩).2.all WError.isNotReadyError = true ∧
    (Perform (stopCancel NewSimple) ⟨"echo", []⟩).1 = stopCancel NewSimple ∧
    (Perform (stopCancel NewSimple) ⟨"echo", []⟩).2.isSome = true ∧
    (Perform (stopCancel NewSimple) ⟨"echo", []⟩).2.all
      WError.isNotReadyError = true :=
  spec_c3_perform_not_ready NewSimple ⟨"echo", []⟩ (Or.inl rfl)

/-- Witness for C4: a duplicate registration of `echo`. -/
theorem spec_c4_register_configuration_witness :
    ((Register regWorker "echo" (some boomHandler)).2.isSome = true ↔
      ("echo" = "" ∨ (some boomHandler : Option Handler) = none ∨
        (lookupH regWorker.handlers "echo").isSome = true)) ∧
    (Register regWorker "echo" (some boomHandler)).2.all
      WError.isConfigurationError = true ∧
    ((Register regWorker "echo" (some boomHandler)).2.isSome = true →
      (Register regWorker "echo" (some boomHandler)).1 = regWorker) ∧
    ("echo" ≠ "" → lookupH regWorker.handlers "echo" = none →
      Register regWorker "echo" (some boomHandler) =
        ({ regWorker with
            handlers := ("echo", boomHandler) :: regWorker.handlers },
          none) ∧
      lookupH (("echo", boomHandler) :: regWorker.handlers) "echo" =
        some boomHandler) ∧
    ("echo" ≠ "" → lookupH regWorker.handlers "echo" = some echoHandler →
      (Register regWorker "echo" (some boomHandler)).2 =
        some (.alreadyMapped "echo") ∧
      (Register regWorker "echo" (some boomHandler)).1 = regWorker ∧
      lookupH (Register regWorker "echo" (some boomHandler)).1.handlers
        "echo" = some echoHandler) :=
  spec_c4_register_configuration regWorker "echo" (some boomHandler)
    boomHandler echoHandler

/-- Witness for C5: a successful `echo` dispatch on the demo worker. -/
theorem spec_c5_perform_dispatches_witness :
    (Perform demoWorker ⟨"echo", ["a", "b"]⟩).2 = none ∧
    (Perform demoWorker ⟨"echo", ["a", "b"]⟩).1.running =
      demoWorker.running ++ [(⟨"echo", ["a", "b"]⟩, echoHandler)] ∧
    (Perform demoWorker ⟨"echo", ["a", "b"]⟩).1.inFlight =
      demoWorker.inFlight + 1 ∧
    (Perform demoWorker ⟨"echo", ["a", "b"]⟩).1.invocations =
      demoWorker.invocations ∧
    (runJob (Perform demoWorker ⟨"echo", ["a", "b"]⟩).1
        demoWorker.running.length).invocations =
      demoWorker.invocations ++ [("echo", ["a", "b"])] ∧
    (runJob (Perform demoWorker ⟨"echo", ["a", "b"]⟩).1
        demoWorker.running.length).inFlight = demoWorker.inFlight ∧
    (runJob (Perform demoWorker ⟨"echo", ["a", "b"]⟩).1
        demoWorker.running.length).running = demoWorker.running :=
  spec_c5_perform_dispatches demoWorker ⟨"echo", ["a", "b"]⟩ echoHandler
    rfl rfl (by decide) rfl

/-- Witness for C6: an empty handler name and an unmapped one. -/
theorem spec_c6_perform_validation_witness :
    (Perform demoWorker ⟨"", []⟩).2 = some (.noHandlerName ⟨"", []⟩) ∧
    (WError.noHandlerName ⟨"", []⟩).isValidationError = true ∧
    (Perform demoWorker ⟨"", []⟩).1.running = demoWorker.running ∧
    (Perform demoWorker ⟨"", []⟩).1.inFlight = demoWorker.inFlight ∧
    (Perform demoWorker ⟨"", []⟩).1.invocations = demoWorker.invocations ∧
    (Perform demoWorker ⟨"", []⟩).1.scheduled = demoWorker.scheduled ∧
    (Perform demoWorker ⟨"missing", []⟩).2 =
      some (.noHandlerMapped "missing") ∧
    (WError.noHandlerMapped "missing").isNotFoundError = true ∧
    (Perform demoWorker ⟨"missing", []⟩).1.running = demoWorker.running ∧
    (Perform demoWorker ⟨"missing", []⟩).1.inFlight =
      demoWorker.inFlight ∧
    (Perform demoWorker ⟨"missing", []⟩).1.invocations =
      demoWorker.invocations ∧
    (Perform demoWorker ⟨"missing", []⟩).1.scheduled =
      demoWorker.scheduled :=
  spec_c6_perform_validation demoWorker ⟨"", []⟩ ⟨"missing", []⟩
    rfl rfl rfl (by decide) rfl

/-- Witness for C7: a 250ms delay submitted before `Start`, with `Start`
at 130ms observed at the second poll. -/
theorem spec_c7_delayed_before_start_witness :
    (PerformIn NewSimple ⟨"late", []⟩ 250).2 = none ∧
    (PerformIn NewSimple ⟨"late", []⟩ 250).1.inFlight =
      NewSimple.inFlight + 1 ∧
    (PerformIn NewSimple ⟨"late", []⟩ 250).1.scheduled =
      NewSimple.scheduled ++ [(⟨"late", []⟩, 250)] ∧
    pollRemaining 250 2 = 250 - 100 * 2 ∧
    schedExecTime 250 2 = 100 * 2 + max (250 - 100 * 2) 0 ∧
    (130 : Int) ≤ schedExecTime 250 2 ∧
    (250 : Int) - 100 ≤ schedExecTime 250 2 :=
  spec_c7_delayed_before_start NewSimple ⟨"late", []⟩ 250 130 2
    rfl rfl (by decide) (by decide) (by decide)

/-- Witness for C8: the stopped busy worker abandons its delayed job and
still completes its running handler. -/
theorem spec_c8_cancel_abandons_witness :
    (schedCancelExit busyWorker 0).scheduled =
      busyWorker.scheduled.eraseIdx 0 ∧
    (schedCancelExit busyWorker 0).invocations = busyWorker.invocations ∧
    (schedCancelExit busyWorker 0).log = busyWorker.log ∧
    (schedCancelExit busyWorker 0).running = busyWorker.running ∧
    (schedCancelExit busyWorker 0).inFlight = busyWorker.inFlight - 1 ∧
    (schedCancelExit busyWorker 0).ctxCancelled = true ∧
    (runJob busyWorker 0).invocations =
      busyWorker.invocations ++ [("echo", ["a"])] ∧
    runJob { busyWorker with ctxCancelled := true } 0 =
      { runJob busyWorker 0 with ctxCancelled := true } :=
  spec_c8_cancel_abandons busyWorker 0 0 ⟨"echo", ["b"]⟩ ⟨"echo", ["a"]⟩
    500 echoHandler true rfl rfl rfl

/-- Witness for C10: `PerformIn` and `PerformAt` on the stopped fresh
worker. -/
theorem spec_c10_performIn_after_cancel_witness :
    PerformIn (stopCancel NewSimple) ⟨"echo", []⟩ 42 =
      (stopCancel NewSimple, some .notReady) ∧
    WError.notReady.isNotReadyError = true ∧
    PerformAt (stopCancel NewSimple) ⟨"echo", []⟩ 100 7 =
      (stopCancel NewSimple, some .notReady) ∧
    (PerformIn (stopCancel NewSimple) ⟨"echo", []⟩ 42).1.scheduled =
      (stopCancel NewSimple).scheduled ∧
    (PerformIn (stopCancel NewSimple) ⟨"echo", []⟩ 42).1.inFlight =
      (stopCancel NewSimple).inFlight :=
  spec_c10_performIn_after_cancel (stopCancel NewSimple) ⟨"echo", []⟩
    42 100 7 rfl

end Rebolo
